import Mathlib

/-!
Shallow embedding of the analysis-and-rewrite engine in `refactoring.py`
(class `Refactoring`), together with theorems settling the frozen claims.

The engine operates on Python abstract syntax trees.  We embed the fragment
of the `ast` node language that the engine's detectors and rewriters
inspect: `Name` (with load/store context), `Constant`, `BinOp`, `Call`,
`Tuple` expressions; `Assign`, `Return`, `Expr` and `Pass` statements;
`FunctionDef` declarations; and a module as an ordered list of top-level
declarations.  `ast.parse` (the Tree Builder) and the final
`ast.unparse` of a whole module (the Serializer) are external to the
engine's logic and are not modelled; every operation below is stated on
the parsed tree, exactly as the corresponding Python code manipulates it.
`ast.unparse` of a *single statement*, which the detectors use to build
canonical text and token sets, is modelled for the embedded fragment.
-/

/-- Expression context of a `Name`/`Tuple` node (`ast.Load` / `ast.Store`). -/
inductive Ctx where
  | load
  | store
deriving DecidableEq

/-- Literal constants (`ast.Constant`). -/
inductive Const where
  | none
  | int (i : Int)
  | bool (b : Bool)
  | str (s : String)
deriving DecidableEq

/-- Embedded Python expressions. -/
inductive PyExpr where
  | name (id : String) (ctx : Ctx)
  | const (value : Const)
  | binop (left : PyExpr) (op : String) (right : PyExpr)
  | call (func : PyExpr) (args : List PyExpr)
  | tuple (elts : List PyExpr) (ctx : Ctx)

/-- Embedded Python statements. -/
inductive PyStmt where
  | assign (targets : List PyExpr) (value : PyExpr)
  | ret (value : Option PyExpr)
  | exprStmt (value : PyExpr)
  | pass

/-- Model of `ast.FunctionDef`: the fields the engine reads and builds. -/
structure FunctionDef where
  name : String
  args : List String
  body : List PyStmt
  decorator_list : List PyExpr

/-- A top-level declaration of the module (`tree.body` element): the code
only distinguishes `ast.FunctionDef` from everything else. -/
inductive TopLevel where
  | fn (f : FunctionDef)
  | stray (s : PyStmt)

/-- The parsed module body (`tree.body`). -/
abbrev PyModule := List TopLevel

/-- Rendering of a constant, as `ast.unparse` prints it. -/
def unparseConst : Const → String
  | Const.none => "None"
  | Const.int i => toString i
  | Const.bool b => if b then "True" else "False"
  | Const.str s => "'" ++ s ++ "'"

mutual

/-- Model of `ast.unparse` on one expression, for the embedded fragment (binary
operators of a single precedence level, so no parenthesisation is
needed; a one-element tuple prints with a trailing comma). -/
def unparseExpr : PyExpr → String
  | PyExpr.name i _ => i
  | PyExpr.const c => unparseConst c
  | PyExpr.binop l op r => unparseExpr l ++ " " ++ op ++ " " ++ unparseExpr r
  | PyExpr.call f as =>
      unparseExpr f ++ "(" ++ ", ".intercalate (unparseExprList as) ++ ")"
  | PyExpr.tuple es _ =>
      let parts := unparseExprList es
      if parts.length = 1 then
        "(" ++ ", ".intercalate parts ++ ",)"
      else
        "(" ++ ", ".intercalate parts ++ ")"

def unparseExprList : List PyExpr → List String
  | [] => []
  | e :: r => unparseExpr e :: unparseExprList r

end

/-- Model of `ast.unparse` on one statement, for the embedded fragment. -/
def unparseStmt : PyStmt → String
  | PyStmt.assign ts v =>
      " = ".intercalate ((ts.map unparseExpr) ++ [unparseExpr v])
  | PyStmt.ret Option.none => "return"
  | PyStmt.ret (Option.some e) => "return " ++ unparseExpr e
  | PyStmt.exprStmt e => unparseExpr e
  | PyStmt.pass => "pass"

/-- Python `str.splitlines(keepends=True)`, for `\n`-separated text. -/
def splitlinesKeepAux : List Char → List Char → List String
  | [], acc => if acc.isEmpty then [] else [String.mk acc.reverse]
  | c :: rest, acc =>
      if c = '\n' then
        String.mk (acc.reverse ++ ['\n']) :: splitlinesKeepAux rest []
      else
        splitlinesKeepAux rest (c :: acc)

def splitlinesKeepends (s : String) : List String :=
  splitlinesKeepAux s.toList []

/-- Python `str.splitlines()` (line terminators dropped), for
`\n`-separated text. -/
def splitlinesDropAux : List Char → List Char → List String
  | [], acc => if acc.isEmpty then [] else [String.mk acc.reverse]
  | c :: rest, acc =>
      if c = '\n' then
        String.mk acc.reverse :: splitlinesDropAux rest []
      else
        splitlinesDropAux rest (c :: acc)

def splitlinesDrop (s : String) : List String :=
  splitlinesDropAux s.toList []

/-- Python `str.split()` with no argument: split on whitespace runs,
discarding empty pieces. -/
def pySplitAux : List Char → List Char → List String
  | [], acc => if acc.isEmpty then [] else [String.mk acc.reverse]
  | c :: rest, acc =>
      if c.isWhitespace then
        if acc.isEmpty then pySplitAux rest []
        else String.mk acc.reverse :: pySplitAux rest []
      else pySplitAux rest (c :: acc)

def pySplit (s : String) : List String :=
  pySplitAux s.toList []

/-- Python `str.strip()`: drop leading and trailing whitespace. -/
def pyStrip (s : String) : String :=
  String.mk
    (((s.toList.dropWhile (fun c => c.isWhitespace)).reverse.dropWhile
      (fun c => c.isWhitespace)).reverse)

/-- Python `s.split("\n")[0]`: the characters before the first newline. -/
def firstLine (s : String) : String :=
  String.mk (s.toList.takeWhile (fun c => c ≠ '\n'))

/-- Python `s.replace("\x60", "")`: drop every backtick character. -/
def removeBackticks (s : String) : String :=
  String.mk (s.toList.filter (fun c => c ≠ Char.ofNat 96))

/-- Lexicographic (code-point) string comparison, the order Python's
`sorted` uses on identifier strings. -/
def pyLeChars : List Char → List Char → Bool
  | [], _ => true
  | _ :: _, [] => false
  | a :: as, b :: bs =>
      if a < b then true
      else if a = b then pyLeChars as bs
      else false

def pyStrLe (a b : String) : Bool :=
  pyLeChars a.toList b.toList

/-- The comparison relation of Python `sorted` on strings. -/
def pyLeRel (a b : String) : Prop := pyStrLe a b = true

instance : DecidableRel pyLeRel :=
  fun a b => inferInstanceAs (Decidable (pyStrLe a b = true))

theorem pyLeChars_total : ∀ l₁ l₂ : List Char,
    pyLeChars l₁ l₂ = true ∨ pyLeChars l₂ l₁ = true
  | [], _ => Or.inl rfl
  | _ :: _, [] => Or.inr rfl
  | a :: as, b :: bs => by
      rcases lt_trichotomy a b with h | h | h
      · left; simp [pyLeChars, h]
      · subst h
        rcases pyLeChars_total as bs with ih | ih
        · left; simp [pyLeChars, lt_irrefl, ih]
        · right; simp [pyLeChars, lt_irrefl, ih]
      · right; simp [pyLeChars, h]

theorem pyLeChars_trans : ∀ l₁ l₂ l₃ : List Char,
    pyLeChars l₁ l₂ = true → pyLeChars l₂ l₃ = true → pyLeChars l₁ l₃ = true
  | [], _, _, _, _ => rfl
  | _ :: _, [], _, h₁, _ => by simp [pyLeChars] at h₁
  | _ :: _, _ :: _, [], _, h₂ => by simp [pyLeChars] at h₂
  | a :: as, b :: bs, c :: cs, h₁, h₂ => by
      by_cases hab : a < b
      · by_cases hbc : b < c
        · simp [pyLeChars, lt_trans hab hbc]
        · by_cases hbceq : b = c
          · subst hbceq; simp [pyLeChars, hab]
          · simp [pyLeChars, hbc, hbceq] at h₂
      · by_cases habeq : a = b
        · subst habeq
          have h₁' : pyLeChars as bs = true := by
            simpa [pyLeChars, lt_irrefl] using h₁
          by_cases hbc : a < c
          · simp [pyLeChars, hbc]
          · by_cases hbceq : a = c
            · subst hbceq
              have h₂' : pyLeChars bs cs = true := by
                simpa [pyLeChars, lt_irrefl] using h₂
              simp [pyLeChars, lt_irrefl, pyLeChars_trans as bs cs h₁' h₂']
            · simp [pyLeChars, hbc, hbceq] at h₂
        · simp [pyLeChars, hab, habeq] at h₁

theorem pyLeChars_antisymm : ∀ l₁ l₂ : List Char,
    pyLeChars l₁ l₂ = true → pyLeChars l₂ l₁ = true → l₁ = l₂
  | [], [], _, _ => rfl
  | [], _ :: _, _, h₂ => by simp [pyLeChars] at h₂
  | _ :: _, [], h₁, _ => by simp [pyLeChars] at h₁
  | a :: as, b :: bs, h₁, h₂ => by
      by_cases hab : a < b
      · have hba : ¬ b < a := lt_asymm hab
        have hne : ¬ b = a := fun h => absurd (h ▸ hab) (lt_irrefl a)
        simp [pyLeChars, hba, hne] at h₂
      · by_cases habeq : a = b
        · subst habeq
          have h₁' : pyLeChars as bs = true := by
            simpa [pyLeChars, lt_irrefl] using h₁
          have h₂' : pyLeChars bs as = true := by
            simpa [pyLeChars, lt_irrefl] using h₂
          rw [pyLeChars_antisymm as bs h₁' h₂']
        · simp [pyLeChars, hab, habeq] at h₁

instance : IsTotal String pyLeRel :=
  ⟨fun a b => pyLeChars_total a.toList b.toList⟩

instance : IsTrans String pyLeRel :=
  ⟨fun _ _ _ h₁ h₂ => pyLeChars_trans _ _ _ h₁ h₂⟩

instance : IsAntisymm String pyLeRel :=
  ⟨fun a b h₁ h₂ => by
    have h := pyLeChars_antisymm a.toList b.toList h₁ h₂
    cases a; cases b; exact congrArg String.mk h⟩

/-- Python `sorted(set_of_strings)`: the unique `pyLeRel`-sorted
enumeration of the set, computed by insertion sort (well defined on the
underlying multiset because sorting is permutation-invariant). -/
def pySorted (s : Finset String) : List String :=
  Quot.liftOn s.val (fun l => l.insertionSort pyLeRel)
    (fun l₁ l₂ h =>
      List.eq_of_perm_of_sorted
        ((List.perm_insertionSort pyLeRel l₁).trans
          (h.trans (List.perm_insertionSort pyLeRel l₂).symm))
        (List.sorted_insertionSort pyLeRel l₁)
        (List.sorted_insertionSort pyLeRel l₂))

/-- Model of `"\n".join(...)`. -/
def joinNL (parts : List String) : String :=
  "\n".intercalate parts

/-! ## Smell detector: `detect_long_methods`

`detect_long_methods(code, threshold=15)` splits `code` into lines with
`splitlines(keepends=True)`, parses it, and for every `ast.FunctionDef`
found by `ast.walk` counts the lines with non-empty stripped content
between `node.lineno` and `node.end_lineno`.  Parsing is not modelled:
the walked function declarations are supplied as a list of positioned
entries (name, `lineno`, `end_lineno`), in `ast.walk` order. -/

/-- A function declaration's positional metadata, as read by
`detect_long_methods` (`lineno` and `end_lineno` are 1-indexed). -/
structure PosFn where
  name : String
  lineno : Nat
  end_lineno : Nat

/-- The non-empty-stripped-line count of one function: the length of
`[line for line in lines[node.lineno - 1 : node.end_lineno] if line.strip() != ""]`. -/
def non_empty_line_count (code : String) (f : PosFn) : Nat :=
  let lines := splitlinesKeepends code
  let function_lines := (lines.drop (f.lineno - 1)).take (f.end_lineno - (f.lineno - 1))
  (function_lines.filter (fun line => pyStrip line ≠ "")).length

/-- Embedding of `Refactoring.detect_long_methods`, over the positioned declarations. -/
def detect_long_methods (code : String) (funcs : List PosFn)
    (threshold : Nat := 15) : List (String × Nat) :=
  let lines := splitlinesKeepends code
  funcs.foldl
    (fun long_methods f =>
      let function_lines := (lines.drop (f.lineno - 1)).take (f.end_lineno - (f.lineno - 1))
      let non_empty_lines := function_lines.filter (fun line => pyStrip line ≠ "")
      if non_empty_lines.length > threshold then
        long_methods ++ [(f.name, non_empty_lines.length)]
      else long_methods)
    []

/-! ## String-keyed dictionary

Python `dict` with string keys, as used for `function_map`,
`mapping` and `global_new_funcs`: an association list with insert-once
keys (lookup returns the value of the unique entry). -/

/-- Lookup `d[k]` / `k in d`: first (and only) binding of `k`. -/
def dictGet (d : List (String × String)) (k : String) : Option String :=
  (d.find? (fun kv => kv.1 = k)).map (fun kv => kv.2)

/-- Assignment `d[k] = v`: overwrite the binding of `k` when present, else append. -/
def dictInsert (d : List (String × String)) (k v : String) : List (String × String) :=
  if (d.find? (fun kv => kv.1 = k)).isSome then
    d.map (fun kv => if kv.1 = k then (k, v) else kv)
  else d ++ [(k, v)]

/-! ## Function Duplicate Detector -/

/-- The canonical body text of a function: unparse each body statement,
join with newlines, then keep only stripped non-empty lines
(`refactoring.py` lines 63–67). -/
def normalized_body (f : FunctionDef) : String :=
  let func_body_code := joinNL (f.body.map unparseStmt)
  joinNL (((splitlinesDrop func_body_code).map (fun line => pyStrip line)).filter
    (fun line => line ≠ ""))

/-- The loop of `detect_duplicate_functions`: thread `function_map` and
`duplicates` through the top-level declarations. -/
def detectDupFnsAux : PyModule → List (String × String) → List (String × String) →
    List (String × String)
  | [], _, duplicates => duplicates
  | TopLevel.fn f :: rest, function_map, duplicates =>
      match dictGet function_map (normalized_body f) with
      | some primary =>
          detectDupFnsAux rest function_map (duplicates ++ [(primary, f.name)])
      | none =>
          detectDupFnsAux rest (dictInsert function_map (normalized_body f) f.name)
            duplicates
  | TopLevel.stray _ :: rest, function_map, duplicates =>
      detectDupFnsAux rest function_map duplicates

/-- Embedding of `Refactoring.detect_duplicate_functions` (the `similarity_threshold`
parameter of the source is unused by it). -/
def detect_duplicate_functions (tree : PyModule) : List (String × String) :=
  detectDupFnsAux tree [] []

/-! ## Free-Variable Analyzer (`Refactoring.get_free_vars`)

The Python code runs an `ast.NodeVisitor` over each node, adding every
`Name` in `Load` context to `free_vars` and every `Name` in `Store`
context to `assigned`, and returns `free_vars - assigned`.  The visitor
is embedded as a fold accumulating the two sets. -/

mutual

/-- Step of `FreeVarVisitor.visit` on one expression, threading the
`(free_vars, assigned)` accumulator through the children in field
order. -/
def visitExpr : PyExpr → Finset String × Finset String → Finset String × Finset String
  | PyExpr.name i c, (loads, stores) =>
      match c with
      | Ctx.load => (insert i loads, stores)
      | Ctx.store => (loads, insert i stores)
  | PyExpr.const _, acc => acc
  | PyExpr.binop l _ r, acc => visitExpr r (visitExpr l acc)
  | PyExpr.call f as, acc => visitExprList as (visitExpr f acc)
  | PyExpr.tuple es _, acc => visitExprList es acc

def visitExprList : List PyExpr → Finset String × Finset String →
    Finset String × Finset String
  | [], acc => acc
  | e :: r, acc => visitExprList r (visitExpr e acc)

end

/-- Step of `FreeVarVisitor.visit` on one statement (children in field order:
`Assign` visits `targets` then `value`). -/
def visitStmt : PyStmt → Finset String × Finset String → Finset String × Finset String
  | PyStmt.assign targets value, acc => visitExpr value (visitExprList targets acc)
  | PyStmt.ret Option.none, acc => acc
  | PyStmt.ret (Option.some e), acc => visitExpr e acc
  | PyStmt.exprStmt e, acc => visitExpr e acc
  | PyStmt.pass, acc => acc

/-- Embedding of `Refactoring.get_free_vars`: loaded names minus stored names. -/
def get_free_vars (nodes : List PyStmt) : Finset String :=
  let acc := nodes.foldl (fun acc node => visitStmt node acc) (∅, ∅)
  acc.1 \ acc.2

/-! Declarative read/write sets, following the spec's words: classify
each identifier reference as read or written by its syntactic context
and collect the two sets independently (spec §4.4). -/

mutual

/-- Identifiers read (loaded) in an expression. -/
def readIdsExpr : PyExpr → Finset String
  | PyExpr.name i Ctx.load => {i}
  | PyExpr.name _ Ctx.store => ∅
  | PyExpr.const _ => ∅
  | PyExpr.binop l _ r => readIdsExpr l ∪ readIdsExpr r
  | PyExpr.call f as => readIdsExpr f ∪ readIdsExprList as
  | PyExpr.tuple es _ => readIdsExprList es

def readIdsExprList : List PyExpr → Finset String
  | [] => ∅
  | e :: r => readIdsExpr e ∪ readIdsExprList r

end

mutual

/-- Identifiers written (stored) in an expression. -/
def writeIdsExpr : PyExpr → Finset String
  | PyExpr.name _ Ctx.load => ∅
  | PyExpr.name i Ctx.store => {i}
  | PyExpr.const _ => ∅
  | PyExpr.binop l _ r => writeIdsExpr l ∪ writeIdsExpr r
  | PyExpr.call f as => writeIdsExpr f ∪ writeIdsExprList as
  | PyExpr.tuple es _ => writeIdsExprList es

def writeIdsExprList : List PyExpr → Finset String
  | [] => ∅
  | e :: r => writeIdsExpr e ∪ writeIdsExprList r

end

/-- Identifiers read in a statement. -/
def readIdsStmt : PyStmt → Finset String
  | PyStmt.assign targets value => readIdsExprList targets ∪ readIdsExpr value
  | PyStmt.ret Option.none => ∅
  | PyStmt.ret (Option.some e) => readIdsExpr e
  | PyStmt.exprStmt e => readIdsExpr e
  | PyStmt.pass => ∅

/-- Identifiers written in a statement. -/
def writeIdsStmt : PyStmt → Finset String
  | PyStmt.assign targets value => writeIdsExprList targets ∪ writeIdsExpr value
  | PyStmt.ret Option.none => ∅
  | PyStmt.ret (Option.some e) => writeIdsExpr e
  | PyStmt.exprStmt e => writeIdsExpr e
  | PyStmt.pass => ∅

/-- Identifiers read anywhere in a block. -/
def readIds (nodes : List PyStmt) : Finset String :=
  nodes.foldr (fun n s => readIdsStmt n ∪ s) ∅

/-- Identifiers written anywhere in a block. -/
def writeIds (nodes : List PyStmt) : Finset String :=
  nodes.foldr (fun n s => writeIdsStmt n ∪ s) ∅

/-! ## Tree Rewriter: `refactor_duplicate_functions`

The source parses, builds `mapping : duplicate -> primary` from the
pairs, rebuilds `tree.body` replacing each mapped function's body with
`return primary(<its own parameter names>)`, and finally re-serializes
with `ast.unparse` (the Serializer, not modelled; the rewritten tree is
the result here). -/

/-- Build `mapping[duplicate] = primary` for each pair, in order. -/
def dupMapping (duplicate_pairs : List (String × String)) : List (String × String) :=
  duplicate_pairs.foldl (fun mapping pd => dictInsert mapping pd.2 pd.1) []

/-- Embedding of `Refactoring.refactor_duplicate_functions`, up to serialization. -/
def refactor_duplicate_functions (tree : PyModule)
    (duplicate_pairs : List (String × String)) : PyModule :=
  let mapping := dupMapping duplicate_pairs
  tree.map (fun node =>
    match node with
    | TopLevel.fn f =>
        match dictGet mapping f.name with
        | some primary =>
            TopLevel.fn
              { name := f.name
                args := f.args
                body := [PyStmt.ret (Option.some (PyExpr.call
                  (PyExpr.name primary Ctx.load)
                  (f.args.map (fun a => PyExpr.name a Ctx.load))))]
                decorator_list := f.decorator_list }
        | none => node
    | TopLevel.stray _ => node)

/-! ## Block Duplicate Detector (`detect_duplicate_blocks`) -/

/-- One entry of `blocks_list`: the tuple
`(func_name, i, block_code, tokens)`. -/
structure Block where
  fn : String
  start : Nat
  code : String
  toks : Finset String
deriving DecidableEq

/-- Model of `"\n".join(ast.unparse(n) for n in block_nodes)`. -/
def blockCode (nodes : List PyStmt) : String :=
  joinNL (nodes.map unparseStmt)

/-- Model of `set(block_code.split())`. -/
def blockToks (nodes : List PyStmt) : Finset String :=
  (pySplit (blockCode nodes)).toFinset

/-- The sliding windows of one function
(`for i in range(len(body) - window_size + 1)`), skipped entirely when
`len(body) < window_size`. -/
def windowsOf (window_size : Nat) (f : FunctionDef) : List Block :=
  if f.body.length < window_size then []
  else
    (List.range (f.body.length - window_size + 1)).map (fun i =>
      let block_nodes := (f.body.drop i).take window_size
      { fn := f.name
        start := i
        code := blockCode block_nodes
        toks := blockToks block_nodes })

/-- Build `blocks_list`: windows of every top-level function, in declaration
order then window start order. -/
def blocksOfModule (window_size : Nat) (tree : PyModule) : List Block :=
  (tree.filterMap (fun node =>
    match node with
    | TopLevel.fn f => some f
    | TopLevel.stray _ => none)).flatMap (windowsOf window_size)

/-- Jaccard similarity of two token sets
(`len(intersection) / len(union) if union else 0`). -/
def jaccard (s t : Finset String) : ℚ :=
  if s ∪ t = ∅ then 0 else ((s ∩ t).card : ℚ) / ((s ∪ t).card : ℚ)

/-- The inner `for j in range(i+1, n)` loop: scan the blocks after the
seed, skipping blocks of the seed's own function and already-used
blocks, and collect (marking used) every block whose token set is
non-empty and at least `threshold`-similar to the seed's. -/
def scanFrom (threshold : ℚ) (seedFn : String) (seedToks : Finset String) :
    List (Nat × Block) → Finset Nat → List Block × Finset Nat
  | [], used => ([], used)
  | (j, b) :: rest, used =>
      if seedFn = b.fn then scanFrom threshold seedFn seedToks rest used
      else if j ∈ used then scanFrom threshold seedFn seedToks rest used
      else if seedToks ≠ ∅ ∧ b.toks ≠ ∅ ∧ threshold ≤ jaccard seedToks b.toks then
        let (g, u) := scanFrom threshold seedFn seedToks rest (insert j used)
        (b :: g, u)
      else scanFrom threshold seedFn seedToks rest used

/-- The outer `for i in range(n)` loop over the indexed `blocks_list`:
open a group at each unused block, collect similar later blocks, keep
groups with more than one member. -/
def groupLoop (threshold : ℚ) : List (Nat × Block) → Finset Nat → List (List Block)
  | [], _ => []
  | (i, b) :: rest, used =>
      if i ∈ used then groupLoop threshold rest used
      else
        let (g, u) := scanFrom threshold b.fn b.toks rest (insert i used)
        if (b :: g).length > 1 then (b :: g) :: groupLoop threshold rest u
        else groupLoop threshold rest u

/-- Embedding of `Refactoring.detect_duplicate_blocks`. -/
def detect_duplicate_blocks (tree : PyModule) (window_size : Nat := 2)
    (similarity_threshold : ℚ := 3 / 4) : List (List Block) :=
  groupLoop similarity_threshold ((blocksOfModule window_size tree).enum) ∅

/-! ## Naming Oracle and `analyze_block_functionality`

`analyze_block_functionality` sends the snippet to the Gemini model.
The network call is the injected capability: it either raises (any
`google.generativeai` exception — timeout, network failure, invalid
API key) or returns the response text.  An exception propagates out of
`analyze_block_functionality` uncaught; a returned text is cleaned and
validated with `str.isidentifier`, falling back to `"common_block"`. -/

/-- Exceptions that can escape the rewrite: an exception raised by the
oracle call, or the `IndexError` of `group[0]` on an empty group. -/
inductive PyErr where
  | oracleErr
  | indexErr
deriving DecidableEq

/-- The Naming Oracle boundary: the `model.generate_content` call,
returning the response text or raising. -/
abbrev Oracle := String → Except PyErr String

/-- ASCII model of Python `str.isidentifier`. -/
def pyIsIdentifier (s : String) : Bool :=
  match s.toList with
  | [] => false
  | c :: rest => (c.isAlpha || c = '_') && rest.all (fun d => d.isAlphanum || d = '_')

/-- The response post-processing of `analyze_block_functionality`:
`response.text.strip().split("\n")[0]`, backticks removed, stripped. -/
def cleanOracleResponse (text : String) : String :=
  let suggested := removeBackticks (firstLine (pyStrip text))
  pyStrip suggested

/-- Embedding of `Refactoring.analyze_block_functionality`: the oracle's exception
propagates; a non-identifier suggestion falls back to
`"common_block"`. -/
def analyze_block_functionality (oracle : Oracle) (code_snippet : String) :
    Except PyErr String := do
  let text ← oracle code_snippet
  let suggested_name := cleanOracleResponse text
  if pyIsIdentifier suggested_name then
    pure suggested_name
  else
    pure "common_block"

/-! ## Tree Rewriter: `refactor_duplicate_blocks` -/

/-- Find the first top-level `FunctionDef` with the given name
(the `for node in tree.body: ... break` search pattern). -/
def findFirstFn : PyModule → String → Option FunctionDef
  | [], _ => none
  | TopLevel.fn f :: rest, nm => if f.name = nm then some f else findFirstFn rest nm
  | TopLevel.stray _ :: rest, nm => findFirstFn rest nm

/-- Rewrite the first top-level `FunctionDef` with the given name in
place (no effect when absent). -/
def updFirstFn : PyModule → String → (FunctionDef → FunctionDef) → PyModule
  | [], _, _ => []
  | TopLevel.fn f :: rest, nm, g =>
      if f.name = nm then TopLevel.fn (g f) :: rest
      else TopLevel.fn f :: updFirstFn rest nm g
  | TopLevel.stray s :: rest, nm, g => TopLevel.stray s :: updFirstFn rest nm g

/-- Python `del l[a:b]` for `0 <= a <= b` (out-of-range bounds clamp). -/
def pyDelSlice (a b : Nat) (l : List PyStmt) : List PyStmt :=
  l.take a ++ l.drop b

/-- Python `l.insert(n, x)` (an out-of-range index appends). -/
def pyInsertAt (n : Nat) (x : PyStmt) (l : List PyStmt) : List PyStmt :=
  l.take n ++ x :: l.drop n

/-- The collision loop of lines 196–200: start from `candidate`, then
try `candidate_1`, `candidate_2`, … until the name is not among the
already-synthesized helper names.  The Python `while` always
terminates because the suffixed names are pairwise distinct and
`global_new_funcs` is finite; `fuel = taken.length + 1` attempts
always suffice for the same reason. -/
def freshNameAux (candidate : String) (taken : List String) :
    Nat → Nat → String
  | _, 0 => candidate
  | suffix, fuel + 1 =>
      let attempt := candidate ++ "_" ++ toString suffix
      if attempt ∈ taken then freshNameAux candidate taken (suffix + 1) fuel
      else attempt

def freshName (candidate : String) (taken : List String) : String :=
  if candidate ∈ taken then freshNameAux candidate taken 1 (taken.length + 1)
  else candidate

/-- Replace one occurrence of a duplicate block (lines 229–264): in the
first top-level function with the occurrence's name, build the
replacement statement (an assignment to the first target's name when
the statement at the occurrence's start index is an assignment whose
first target is a plain name, else a bare call), delete the
`window_size` statements there and insert the replacement. -/
def rewriteOccurrence (window_size : Nat) (helper : String)
    (argNames : List String) (tree : PyModule) (occurrence : Block) : PyModule :=
  updFirstFn tree occurrence.fn (fun node =>
    let callExpr := PyExpr.call (PyExpr.name helper Ctx.load)
      (argNames.map (fun v => PyExpr.name v Ctx.load))
    let new_stmt :=
      match node.body.get? occurrence.start with
      | some (PyStmt.assign (t0 :: _) _) =>
          match t0 with
          | PyExpr.name var_name _ =>
              PyStmt.assign [PyExpr.name var_name Ctx.store] callExpr
          | _ => PyStmt.exprStmt callExpr
      | _ => PyStmt.exprStmt callExpr
    { node with
        body := pyInsertAt occurrence.start new_stmt
          (pyDelSlice occurrence.start (occurrence.start + window_size) node.body) })

/-- Process one duplicate-block group (the body of the
`for group in duplicate_block_groups` loop), threading the tree and
the list of already-synthesized helper names. -/
def processGroup (oracle : Oracle) (window_size : Nat)
    (st : PyModule × List String) :
    List Block → Except PyErr (PyModule × List String)
  | [] => throw PyErr.indexErr
  | rep :: rest => do
    let tree := st.1
    let taken := st.2
    let free_vars : Finset String :=
      match findFirstFn tree rep.fn with
      | some node => get_free_vars ((node.body.drop rep.start).take window_size)
      | none => ∅
    let argNames := pySorted free_vars
    let candidate ← analyze_block_functionality oracle rep.code
    let new_func_name := freshName candidate taken
    let helper_body :=
      match findFirstFn tree rep.fn with
      | some node => (node.body.drop rep.start).take window_size
      | none => []
    let helper_body :=
      match helper_body.getLast? with
      | some (PyStmt.ret _) => helper_body
      | _ =>
          match helper_body.head? with
          | some (PyStmt.assign (t0 :: _) _) =>
              match t0 with
              | PyExpr.name var_name _ =>
                  helper_body ++ [PyStmt.ret (Option.some (PyExpr.name var_name Ctx.load))]
              | _ => helper_body
          | _ => helper_body ++ [PyStmt.ret (Option.some (PyExpr.const Const.none))]
    let new_helper : FunctionDef :=
      { name := new_func_name
        args := argNames
        body := helper_body
        decorator_list := [] }
    let tree := (rep :: rest).foldl (rewriteOccurrence window_size new_func_name argNames) tree
    pure (tree ++ [TopLevel.fn new_helper], taken ++ [new_func_name])

/-- Embedding of `Refactoring.refactor_duplicate_blocks`, up to serialization. -/
def refactor_duplicate_blocks (oracle : Oracle) (tree : PyModule)
    (duplicate_block_groups : List (List Block)) (window_size : Nat := 2) :
    Except PyErr PyModule := do
  let st ← duplicate_block_groups.foldlM (processGroup oracle window_size) (tree, [])
  pure st.1

/-! # Theorems settling the claims -/

/-! ## Claim C9: `detect_long_methods` reports exactly the functions whose
non-empty-line count exceeds the threshold, at that exact count. -/

theorem c9_foldl_aux {α β : Type} (cnt : α → Nat) (nm : α → β) (t : Nat) :
    ∀ (l : List α) (acc : List (β × Nat)),
      l.foldl (fun acc f => if t < cnt f then acc ++ [(nm f, cnt f)] else acc) acc =
        acc ++ (l.filter (fun f => t < cnt f)).map (fun f => (nm f, cnt f)) := by
  intro l
  induction l with
  | nil => intro acc; simp
  | cons f rest ih =>
      intro acc
      by_cases h : t < cnt f
      · simp [List.foldl_cons, List.filter_cons, h, ih]
      · simp [List.foldl_cons, List.filter_cons, h, ih]

/-- Claim C9: for every function declaration, `detect_long_methods` counts
the non-empty trimmed lines between the function's start and end source
positions and reports exactly the functions whose count exceeds the
threshold, with the reported metric equal to that exact count. -/
theorem c9_long_methods_exact (code : String) (funcs : List PosFn) (threshold : Nat) :
    detect_long_methods code funcs threshold =
      (funcs.filter (fun f => threshold < non_empty_line_count code f)).map
        (fun f => (f.name, non_empty_line_count code f)) := by
  have h :
      detect_long_methods code funcs threshold =
        funcs.foldl
          (fun acc f =>
            if threshold < non_empty_line_count code f then
              acc ++ [(f.name, non_empty_line_count code f)]
            else acc) [] := rfl
  rw [h, c9_foldl_aux]
  simp

/-! ## Claim C8: `get_free_vars` returns reads minus writes. -/

mutual

theorem visitExpr_spec : ∀ (e : PyExpr) (L S : Finset String),
    visitExpr e (L, S) = (L ∪ readIdsExpr e, S ∪ writeIdsExpr e)
  | PyExpr.name i c, L, S => by
      cases c <;>
        simp [visitExpr, readIdsExpr, writeIdsExpr, Finset.insert_eq, Finset.union_comm]
  | PyExpr.const c, L, S => by simp [visitExpr, readIdsExpr, writeIdsExpr]
  | PyExpr.binop l op r, L, S => by
      have hl := visitExpr_spec l L S
      have hr := visitExpr_spec r (L ∪ readIdsExpr l) (S ∪ writeIdsExpr l)
      simp [visitExpr, readIdsExpr, writeIdsExpr, hl, hr, Finset.union_assoc]
  | PyExpr.call f as, L, S => by
      have hf := visitExpr_spec f L S
      have ha := visitExprList_spec as (L ∪ readIdsExpr f) (S ∪ writeIdsExpr f)
      simp [visitExpr, readIdsExpr, writeIdsExpr, hf, ha, Finset.union_assoc]
  | PyExpr.tuple es x, L, S => by
      have ha := visitExprList_spec es L S
      simp [visitExpr, readIdsExpr, writeIdsExpr, ha]

theorem visitExprList_spec : ∀ (es : List PyExpr) (L S : Finset String),
    visitExprList es (L, S) = (L ∪ readIdsExprList es, S ∪ writeIdsExprList es)
  | [], L, S => by simp [visitExprList, readIdsExprList, writeIdsExprList]
  | e :: r, L, S => by
      have he := visitExpr_spec e L S
      have hr := visitExprList_spec r (L ∪ readIdsExpr e) (S ∪ writeIdsExpr e)
      simp [visitExprList, he, hr, readIdsExprList, writeIdsExprList, Finset.union_assoc]

end

theorem visitStmt_spec (s : PyStmt) (L S : Finset String) :
    visitStmt s (L, S) = (L ∪ readIdsStmt s, S ∪ writeIdsStmt s) := by
  cases s with
  | assign targets value =>
      have ht := visitExprList_spec targets L S
      have hv := visitExpr_spec value (L ∪ readIdsExprList targets)
        (S ∪ writeIdsExprList targets)
      simp [visitStmt, readIdsStmt, writeIdsStmt, ht, hv, Finset.union_assoc]
  | ret v =>
      cases v with
      | none => simp [visitStmt, readIdsStmt, writeIdsStmt]
      | some e => simpa [visitStmt, readIdsStmt, writeIdsStmt] using visitExpr_spec e L S
  | exprStmt e => simpa [visitStmt, readIdsStmt, writeIdsStmt] using visitExpr_spec e L S
  | pass => simp [visitStmt, readIdsStmt, writeIdsStmt]

theorem fold_visit_spec : ∀ (ns : List PyStmt) (L S : Finset String),
    ns.foldl (fun acc n => visitStmt n acc) (L, S) = (L ∪ readIds ns, S ∪ writeIds ns) := by
  intro ns
  induction ns with
  | nil => intro L S; simp [readIds, writeIds]
  | cons n r ih =>
      intro L S
      rw [List.foldl_cons, visitStmt_spec, ih]
      simp [readIds, writeIds, Finset.union_assoc]

/-- Claim C8: the free-variable analyzer returns exactly the identifiers
read anywhere in the block minus the identifiers written anywhere in the
block (flow-insensitively), and on the block `x = a + b; return x` it
returns `{a, b}` and not `x`. -/
theorem c8_free_vars_read_minus_written :
    (∀ nodes : List PyStmt, get_free_vars nodes = readIds nodes \ writeIds nodes) ∧
    get_free_vars
        [PyStmt.assign [PyExpr.name "x" Ctx.store]
            (PyExpr.binop (PyExpr.name "a" Ctx.load) "+" (PyExpr.name "b" Ctx.load)),
          PyStmt.ret (Option.some (PyExpr.name "x" Ctx.load))] =
      ({"a", "b"} : Finset String) := by
  constructor
  · intro nodes
    have h := fold_visit_spec nodes ∅ ∅
    simp [get_free_vars, h]
  · decide

/-! ## Claim C6: `refactor_duplicate_functions` rewrites each duplicate's
body to a single forwarding return. -/

/-- Claim C6: for every pair in the supplied list, the duplicate
function's body becomes a single statement returning a call of the
primary with the duplicate's own parameter names forwarded positionally,
while its name, parameter list and decorators are preserved. -/
theorem c6_duplicate_body_rewrite (tree : PyModule)
    (duplicate_pairs : List (String × String)) (i : Nat) (f : FunctionDef)
    (primary : String)
    (hi : tree[i]? = some (TopLevel.fn f))
    (hp : dictGet (dupMapping duplicate_pairs) f.name = some primary) :
    (refactor_duplicate_functions tree duplicate_pairs)[i]? =
      some (TopLevel.fn
        { name := f.name
          args := f.args
          body := [PyStmt.ret (Option.some (PyExpr.call (PyExpr.name primary Ctx.load)
            (f.args.map (fun a => PyExpr.name a Ctx.load))))]
          decorator_list := f.decorator_list }) := by
  simp [refactor_duplicate_functions, List.getElem?_map, hi, hp]

/-- The end-to-end scenario of the spec, as the witness input for C6:
`add_one` and `plus_one` share the body `return n + 1`. -/
def c6AddOne : FunctionDef :=
  { name := "add_one"
    args := ["n"]
    body := [PyStmt.ret (Option.some (PyExpr.binop (PyExpr.name "n" Ctx.load) "+"
      (PyExpr.const (Const.int 1))))]
    decorator_list := [] }

def c6PlusOne : FunctionDef :=
  { name := "plus_one"
    args := ["n"]
    body := [PyStmt.ret (Option.some (PyExpr.binop (PyExpr.name "n" Ctx.load) "+"
      (PyExpr.const (Const.int 1))))]
    decorator_list := [] }

def c6Scenario : PyModule := [TopLevel.fn c6AddOne, TopLevel.fn c6PlusOne]

theorem c6_duplicate_body_rewrite_witness :
    detect_duplicate_functions c6Scenario = [("add_one", "plus_one")] ∧
    (refactor_duplicate_functions c6Scenario [("add_one", "plus_one")])[1]? =
      some (TopLevel.fn
        { name := "plus_one"
          args := ["n"]
          body := [PyStmt.ret (Option.some (PyExpr.call (PyExpr.name "add_one" Ctx.load)
            [PyExpr.name "n" Ctx.load]))]
          decorator_list := [] }) :=
  ⟨rfl, c6_duplicate_body_rewrite c6Scenario [("add_one", "plus_one")] 1 c6PlusOne
    "add_one" rfl rfl⟩

/-! ## Claim C7: `detect_duplicate_functions` matches the declarative
first-encountered-primary specification. -/

/-- Declarative primary choice, following the spec's words: the name of
the textually first top-level function whose canonical body text equals
`nb`. -/
def specFirstFnName (l : PyModule) (nb : String) : Option String :=
  ((l.filterMap (fun node =>
    match node with
    | TopLevel.fn f => some f
    | TopLevel.stray _ => none)).find? (fun f => normalized_body f = nb)).map
    (fun f => f.name)

/-- Declarative duplicate-pair list, following the spec's words (§4.2):
walk the top-level functions in order; every function whose canonical
body text already occurred earlier is reported as a duplicate, paired
with the textually first function carrying that body as `primary`. -/
def spec_duplicate_pairs_from (done : PyModule) : PyModule → List (String × String)
  | [] => []
  | TopLevel.fn f :: r =>
      match specFirstFnName done (normalized_body f) with
      | some primary =>
          (primary, f.name) :: spec_duplicate_pairs_from (done ++ [TopLevel.fn f]) r
      | none => spec_duplicate_pairs_from (done ++ [TopLevel.fn f]) r
  | TopLevel.stray s :: r => spec_duplicate_pairs_from (done ++ [TopLevel.stray s]) r

def spec_duplicate_pairs (tree : PyModule) : List (String × String) :=
  spec_duplicate_pairs_from [] tree

theorem specFirstFnName_append_stray (done : PyModule) (s : PyStmt) (nb : String) :
    specFirstFnName (done ++ [TopLevel.stray s]) nb = specFirstFnName done nb := by
  simp [specFirstFnName, List.filterMap_append, List.filterMap]

theorem specFirstFnName_append_of_some {done : PyModule} {nb p : String}
    (h : specFirstFnName done nb = some p) (tl : List TopLevel) :
    specFirstFnName (done ++ tl) nb = some p := by
  unfold specFirstFnName at h ⊢
  rw [List.filterMap_append, List.find?_append]
  rcases ho : List.find? (fun f => normalized_body f = nb)
      (done.filterMap (fun node => match node with
        | TopLevel.fn f => some f
        | TopLevel.stray _ => none)) with _ | f
  · rw [ho] at h; exact absurd h (by simp)
  · rw [ho] at h
    rw [ho, Option.or_some]
    exact h

theorem specFirstFnName_append_fn_of_none {done : PyModule} {nb : String}
    (h : specFirstFnName done nb = none) (f : FunctionDef) :
    specFirstFnName (done ++ [TopLevel.fn f]) nb =
      if normalized_body f = nb then some f.name else none := by
  unfold specFirstFnName at h ⊢
  rw [Option.map_eq_none'] at h
  rw [List.filterMap_append, List.find?_append, h, Option.none_or]
  by_cases hf : normalized_body f = nb
  · rw [show (([TopLevel.fn f] : PyModule).filterMap (fun node =>
      match node with
      | TopLevel.fn f => some f
      | TopLevel.stray _ => none)) = [f] from rfl]
    rw [List.find?_cons_of_pos _ (by simpa using hf)]
    simp [hf]
  · rw [show (([TopLevel.fn f] : PyModule).filterMap (fun node =>
      match node with
      | TopLevel.fn f => some f
      | TopLevel.stray _ => none)) = [f] from rfl]
    rw [List.find?_cons_of_neg _ (by simpa using hf)]
    simp [hf]

theorem dictGet_append_single (d : List (String × String)) (k v k' : String) :
    dictGet (d ++ [(k, v)]) k' =
      (dictGet d k').or (if k = k' then some v else none) := by
  unfold dictGet
  rw [List.find?_append]
  rcases ho : d.find? (fun kv => kv.1 = k') with _ | kv
  · by_cases hk : k = k'
    · subst hk; simp [ho, List.find?]
    · simp [ho, List.find?, hk]
  · simp [ho]

theorem dictInsert_of_not_found {d : List (String × String)} {k : String}
    (h : dictGet d k = none) (v : String) : dictInsert d k v = d ++ [(k, v)] := by
  unfold dictGet at h
  rw [Option.map_eq_none'] at h
  simp [dictInsert, h]

theorem detectDupFnsAux_spec :
    ∀ (rest : PyModule) (done : PyModule) (fmap : List (String × String))
      (dups : List (String × String)),
      (∀ nb, dictGet fmap nb = specFirstFnName done nb) →
      detectDupFnsAux rest fmap dups = dups ++ spec_duplicate_pairs_from done rest := by
  intro rest
  induction rest with
  | nil => intro done fmap dups hinv; simp [detectDupFnsAux, spec_duplicate_pairs_from]
  | cons tl r ih =>
      intro done fmap dups hinv
      cases tl with
      | stray s =>
          have hstep : detectDupFnsAux (TopLevel.stray s :: r) fmap dups =
              detectDupFnsAux r fmap dups := rfl
          have hspec : spec_duplicate_pairs_from done (TopLevel.stray s :: r) =
              spec_duplicate_pairs_from (done ++ [TopLevel.stray s]) r := rfl
          rw [hstep, hspec]
          exact ih (done ++ [TopLevel.stray s]) fmap dups
            (fun nb => by rw [hinv nb, specFirstFnName_append_stray])
      | fn f =>
          have hf := hinv (normalized_body f)
          rcases hcase : specFirstFnName done (normalized_body f) with _ | primary
          · have hget : dictGet fmap (normalized_body f) = none := by rw [hf, hcase]
            have hstep : detectDupFnsAux (TopLevel.fn f :: r) fmap dups =
                detectDupFnsAux r (dictInsert fmap (normalized_body f) f.name) dups := by
              simp [detectDupFnsAux, hget]
            have hspec : spec_duplicate_pairs_from done (TopLevel.fn f :: r) =
                spec_duplicate_pairs_from (done ++ [TopLevel.fn f]) r := by
              simp [spec_duplicate_pairs_from, hcase]
            rw [hstep, hspec]
            refine ih (done ++ [TopLevel.fn f]) _ dups (fun nb => ?_)
            rw [dictInsert_of_not_found hget, dictGet_append_single, hinv nb]
            rcases hnb : specFirstFnName done nb with _ | q
            · rw [specFirstFnName_append_fn_of_none hnb]
              by_cases heq : normalized_body f = nb
              · simp [heq, Option.or]
              · simp [heq, Option.or]
            · rw [specFirstFnName_append_of_some hnb]
              simp [Option.or]
          · have hget : dictGet fmap (normalized_body f) = some primary := by
              rw [hf, hcase]
            have hstep : detectDupFnsAux (TopLevel.fn f :: r) fmap dups =
                detectDupFnsAux r fmap (dups ++ [(primary, f.name)]) := by
              simp [detectDupFnsAux, hget]
            have hspec : spec_duplicate_pairs_from done (TopLevel.fn f :: r) =
                (primary, f.name) :: spec_duplicate_pairs_from (done ++ [TopLevel.fn f]) r := by
              simp [spec_duplicate_pairs_from, hcase]
            rw [hstep, hspec]
            have hinv' : ∀ nb, dictGet fmap nb = specFirstFnName (done ++ [TopLevel.fn f]) nb := by
              intro nb
              rcases hnb : specFirstFnName done nb with _ | q
              · rw [specFirstFnName_append_fn_of_none hnb f]
                by_cases heq : normalized_body f = nb
                · rw [← heq] at hnb
                  rw [hnb] at hcase
                  cases hcase
                · simp [heq, hinv nb, hnb]
              · rw [specFirstFnName_append_of_some hnb, hinv nb, hnb]
            rw [ih (done ++ [TopLevel.fn f]) fmap (dups ++ [(primary, f.name)]) hinv']
            simp

/-- Claim C7: two functions are reported as duplicates exactly on
canonical-text equality of their bodies (never fuzzily), every later
function whose canonical body text occurred before is reported, and the
`primary` of each reported pair is the textually first (earliest
declared) function with that body. -/
theorem c7_exact_duplicate_pairs (tree : PyModule) :
    detect_duplicate_functions tree = spec_duplicate_pairs tree := by
  have h := detectDupFnsAux_spec tree [] [] []
    (fun nb => by simp [dictGet, specFirstFnName])
  simpa [detect_duplicate_functions, spec_duplicate_pairs] using h

/-! ## Claim C2: shape of detected duplicate-block groups. -/

theorem scanFrom_cons_same {threshold : ℚ} {seedFn : String} {seedToks : Finset String}
    {j : Nat} {b : Block} {rest : List (Nat × Block)} {used : Finset Nat}
    (h : seedFn = b.fn) :
    scanFrom threshold seedFn seedToks ((j, b) :: rest) used =
      scanFrom threshold seedFn seedToks rest used := by
  simp [scanFrom, h]

theorem scanFrom_cons_used {threshold : ℚ} {seedFn : String} {seedToks : Finset String}
    {j : Nat} {b : Block} {rest : List (Nat × Block)} {used : Finset Nat}
    (h1 : ¬ seedFn = b.fn) (h2 : j ∈ used) :
    scanFrom threshold seedFn seedToks ((j, b) :: rest) used =
      scanFrom threshold seedFn seedToks rest used := by
  simp [scanFrom, h1, h2]

theorem scanFrom_cons_hit {threshold : ℚ} {seedFn : String} {seedToks : Finset String}
    {j : Nat} {b : Block} {rest : List (Nat × Block)} {used : Finset Nat}
    (h1 : ¬ seedFn = b.fn) (h2 : j ∉ used)
    (h3 : seedToks ≠ ∅ ∧ b.toks ≠ ∅ ∧ threshold ≤ jaccard seedToks b.toks) :
    scanFrom threshold seedFn seedToks ((j, b) :: rest) used =
      (b :: (scanFrom threshold seedFn seedToks rest (insert j used)).1,
        (scanFrom threshold seedFn seedToks rest (insert j used)).2) := by
  rcases hgu : scanFrom threshold seedFn seedToks rest (insert j used) with ⟨g, u⟩
  simp [scanFrom, h1, h2, h3, hgu]

theorem scanFrom_cons_miss {threshold : ℚ} {seedFn : String} {seedToks : Finset String}
    {j : Nat} {b : Block} {rest : List (Nat × Block)} {used : Finset Nat}
    (h1 : ¬ seedFn = b.fn) (h2 : j ∉ used)
    (h3 : ¬ (seedToks ≠ ∅ ∧ b.toks ≠ ∅ ∧ threshold ≤ jaccard seedToks b.toks)) :
    scanFrom threshold seedFn seedToks ((j, b) :: rest) used =
      scanFrom threshold seedFn seedToks rest used := by
  simp only [scanFrom]
  rw [if_neg h1, if_neg h2, if_neg h3]

theorem groupLoop_cons_used {threshold : ℚ} {i : Nat} {b : Block}
    {rest : List (Nat × Block)} {used : Finset Nat} (h : i ∈ used) :
    groupLoop threshold ((i, b) :: rest) used = groupLoop threshold rest used := by
  simp [groupLoop, h]

theorem groupLoop_cons_fresh {threshold : ℚ} {i : Nat} {b : Block}
    {rest : List (Nat × Block)} {used : Finset Nat} (h : i ∉ used) :
    groupLoop threshold ((i, b) :: rest) used =
      if (b :: (scanFrom threshold b.fn b.toks rest (insert i used)).1).length > 1 then
        (b :: (scanFrom threshold b.fn b.toks rest (insert i used)).1) ::
          groupLoop threshold rest (scanFrom threshold b.fn b.toks rest (insert i used)).2
      else groupLoop threshold rest (scanFrom threshold b.fn b.toks rest (insert i used)).2 := by
  rcases hgu : scanFrom threshold b.fn b.toks rest (insert i used) with ⟨g, u⟩
  simp [groupLoop, h, hgu]

theorem scanFrom_fn_ne (threshold : ℚ) (seedFn : String) (seedToks : Finset String) :
    ∀ (js : List (Nat × Block)) (used : Finset Nat) (b : Block),
      b ∈ (scanFrom threshold seedFn seedToks js used).1 → b.fn ≠ seedFn := by
  intro js
  induction js with
  | nil => intro used b hb; simp [scanFrom] at hb
  | cons p rest ih =>
      intro used b hb
      obtain ⟨j, blk⟩ := p
      by_cases h1 : seedFn = blk.fn
      · rw [scanFrom_cons_same h1] at hb; exact ih _ _ hb
      · by_cases h2 : j ∈ used
        · rw [scanFrom_cons_used h1 h2] at hb; exact ih _ _ hb
        · by_cases h3 : seedToks ≠ ∅ ∧ blk.toks ≠ ∅ ∧ threshold ≤ jaccard seedToks blk.toks
          · rw [scanFrom_cons_hit h1 h2 h3] at hb
            rcases List.mem_cons.mp hb with hbe | hbm
            · subst hbe; exact fun he => h1 he.symm
            · exact ih _ _ hbm
          · rw [scanFrom_cons_miss h1 h2 h3] at hb; exact ih _ _ hb

theorem groupLoop_mem (threshold : ℚ) :
    ∀ (l : List (Nat × Block)) (used : Finset Nat) (g : List Block),
      g ∈ groupLoop threshold l used →
      ∃ seed rest, g = seed :: rest ∧ rest ≠ [] ∧ ∀ b ∈ rest, b.fn ≠ seed.fn := by
  intro l
  induction l with
  | nil => intro used g hg; simp [groupLoop] at hg
  | cons p rest ih =>
      intro used g hg
      obtain ⟨i, blk⟩ := p
      by_cases h : i ∈ used
      · rw [groupLoop_cons_used h] at hg; exact ih _ _ hg
      · rw [groupLoop_cons_fresh h] at hg
        by_cases hlen :
            (blk :: (scanFrom threshold blk.fn blk.toks rest (insert i used)).1).length > 1
        · rw [if_pos hlen] at hg
          rcases List.mem_cons.mp hg with hgeq | hgmem
          · refine ⟨blk, (scanFrom threshold blk.fn blk.toks rest (insert i used)).1,
              hgeq, ?_, ?_⟩
            · intro hnil; rw [hnil] at hlen; simp at hlen
            · intro b hb
              exact scanFrom_fn_ne threshold blk.fn blk.toks rest (insert i used) b hb
          · exact ih _ _ hgmem
        · rw [if_neg hlen] at hg; exact ih _ _ hg

/-- Claim C2 (amended): every group returned by `detect_duplicate_blocks`
has at least 2 occurrences, and no occurrence other than the seed comes
from the seed's owning function; but two non-seed occurrences may share
an owning function (only comparisons against the seed are filtered). -/
theorem c2_amended_group_invariant (tree : PyModule) (window_size : Nat)
    (similarity_threshold : ℚ) (g : List Block)
    (hg : g ∈ detect_duplicate_blocks tree window_size similarity_threshold) :
    ∃ seed rest, g = seed :: rest ∧ rest ≠ [] ∧ ∀ b ∈ rest, b.fn ≠ seed.fn :=
  groupLoop_mem similarity_threshold ((blocksOfModule window_size tree).enum) ∅ g hg

theorem jaccard_ge_of_cards {s t : Finset String} {i u : Nat} {θ : ℚ}
    (hi : (s ∩ t).card = i) (hu : (s ∪ t).card = u) (hne : s ∪ t ≠ ∅)
    (hθ : θ ≤ (i : ℚ) / u) : θ ≤ jaccard s t := by
  rw [jaccard, if_neg hne, hi, hu]; exact hθ

theorem jaccard_lt_of_cards {s t : Finset String} {i u : Nat} {θ : ℚ}
    (hi : (s ∩ t).card = i) (hu : (s ∪ t).card = u) (hne : s ∪ t ≠ ∅)
    (hθ : (i : ℚ) / u < θ) : jaccard s t < θ := by
  rw [jaccard, if_neg hne, hi, hu]; exact hθ

theorem jaccard_empty_left (t : Finset String) : jaccard ∅ t = 0 := by
  by_cases h : (∅ : Finset String) ∪ t = ∅
  · simp [jaccard, h]
  · simp [jaccard, h]

theorem jaccard_empty_right (s : Finset String) : jaccard s ∅ = 0 := by
  by_cases h : s ∪ (∅ : Finset String) = ∅
  · simp [jaccard, h]
  · simp [jaccard, h]

theorem nonempty_of_jaccard_ge {s t : Finset String} {θ : ℚ} (hθ : 0 < θ)
    (h : θ ≤ jaccard s t) : s ≠ ∅ ∧ t ≠ ∅ := by
  constructor
  · intro hs
    rw [hs, jaccard_empty_left] at h
    exact absurd h (not_le.mpr hθ)
  · intro ht
    rw [ht, jaccard_empty_right] at h
    exact absurd h (not_le.mpr hθ)

/-- Counterexample input for C2: `f` has one window, `g` has two
overlapping windows with identical token sets, so the seed window of `f`
absorbs both windows of `g` into one group. -/
def c2CxF : FunctionDef :=
  { name := "f"
    args := []
    body := [PyStmt.assign [PyExpr.name "a" Ctx.store] (PyExpr.const (Const.int 1)),
      PyStmt.assign [PyExpr.name "b" Ctx.store] (PyExpr.const (Const.int 2))]
    decorator_list := [] }

def c2CxG : FunctionDef :=
  { name := "g"
    args := []
    body := [PyStmt.assign [PyExpr.name "a" Ctx.store] (PyExpr.const (Const.int 1)),
      PyStmt.assign [PyExpr.name "b" Ctx.store] (PyExpr.const (Const.int 2)),
      PyStmt.assign [PyExpr.name "a" Ctx.store] (PyExpr.const (Const.int 1))]
    decorator_list := [] }

def c2CxModule : PyModule := [TopLevel.fn c2CxF, TopLevel.fn c2CxG]

theorem ne_empty_of_card_pos {s : Finset String} {n : Nat} (h : s.card = n)
    (hn : 0 < n) : s ≠ ∅ := by
  intro he
  rw [he] at h
  simp at h
  omega

def c2BlkF0 : Block :=
  { fn := "f", start := 0, code := "a = 1\nb = 2",
    toks := (pySplit "a = 1\nb = 2").toFinset }

def c2BlkG0 : Block :=
  { fn := "g", start := 0, code := "a = 1\nb = 2",
    toks := (pySplit "a = 1\nb = 2").toFinset }

def c2BlkG1 : Block :=
  { fn := "g", start := 1, code := "b = 2\na = 1",
    toks := (pySplit "b = 2\na = 1").toFinset }

set_option maxHeartbeats 1000000 in
theorem c2_detect_cx :
    detect_duplicate_blocks c2CxModule 2 (3 / 4) = [[c2BlkF0, c2BlkG0, c2BlkG1]] := by
  have hblocks : (blocksOfModule 2 c2CxModule).enum =
      [(0, c2BlkF0), (1, c2BlkG0), (2, c2BlkG1)] := rfl
  have hne0 : c2BlkF0.toks ≠ ∅ := ne_empty_of_card_pos (n := 5) (by decide) (by decide)
  have hne1 : c2BlkG0.toks ≠ ∅ := ne_empty_of_card_pos (n := 5) (by decide) (by decide)
  have hne2 : c2BlkG1.toks ≠ ∅ := ne_empty_of_card_pos (n := 5) (by decide) (by decide)
  have hjac0 : (3 / 4 : ℚ) ≤ jaccard c2BlkF0.toks c2BlkG0.toks :=
    jaccard_ge_of_cards (i := 5) (u := 5) (by decide) (by decide)
      (ne_empty_of_card_pos (n := 5) (by decide) (by decide)) (by norm_num)
  have hjac1 : (3 / 4 : ℚ) ≤ jaccard c2BlkF0.toks c2BlkG1.toks :=
    jaccard_ge_of_cards (i := 5) (u := 5) (by decide) (by decide)
      (ne_empty_of_card_pos (n := 5) (by decide) (by decide)) (by norm_num)
  rw [detect_duplicate_blocks, hblocks]
  rw [groupLoop_cons_fresh (by decide)]
  rw [scanFrom_cons_hit (by decide) (by decide) ⟨hne0, hne1, hjac0⟩]
  rw [scanFrom_cons_hit (by decide) (by decide) ⟨hne0, hne2, hjac1⟩]
  rw [show scanFrom (3 / 4) c2BlkF0.fn c2BlkF0.toks []
      (insert 2 (insert 1 (insert 0 (∅ : Finset Nat)))) =
      ([], insert 2 (insert 1 (insert 0 ∅))) from rfl]
  rw [if_pos (by decide)]
  rw [groupLoop_cons_used (by decide), groupLoop_cons_used (by decide)]
  rfl

/-- Counterexample for C2 as stated: the single detected group contains
two distinct occurrences owned by the same function `g`. -/
theorem c2_same_function_pair_in_group :
    ∃ g ∈ detect_duplicate_blocks c2CxModule 2 (3 / 4),
      ∃ b₁ ∈ g, ∃ b₂ ∈ g, b₁ ≠ b₂ ∧ b₁.fn = b₂.fn := by
  refine ⟨[c2BlkF0, c2BlkG0, c2BlkG1], ?_, c2BlkG0, by simp, c2BlkG1, by simp, ?_, rfl⟩
  · rw [c2_detect_cx]; simp
  · intro h
    exact absurd (congrArg Block.start h) (by decide)

theorem c2_amended_group_invariant_witness :
    ∃ seed rest, [c2BlkF0, c2BlkG0, c2BlkG1] = seed :: rest ∧ rest ≠ [] ∧
      ∀ b ∈ rest, b.fn ≠ seed.fn :=
  c2_amended_group_invariant c2CxModule 2 (3 / 4) [c2BlkF0, c2BlkG0, c2BlkG1]
    (by rw [c2_detect_cx]; simp)

/-! ## Claim C5: seed-only, non-transitive grouping. -/

/-- The unique window of a function whose body has exactly
`window_size = 2` statements. -/
def window2 (f : FunctionDef) : Block :=
  { fn := f.name, start := 0, code := blockCode f.body, toks := blockToks f.body }

@[simp] theorem window2_fn (f : FunctionDef) : (window2 f).fn = f.name := rfl

@[simp] theorem window2_toks (f : FunctionDef) :
    (window2 f).toks = blockToks f.body := rfl

theorem scanFrom_nil (threshold : ℚ) (seedFn : String) (seedToks : Finset String)
    (used : Finset Nat) :
    scanFrom threshold seedFn seedToks [] used = ([], used) := rfl

theorem groupLoop_nil (threshold : ℚ) (used : Finset Nat) :
    groupLoop threshold [] used = [] := rfl

theorem windowsOf_len2 {f : FunctionDef} (h : f.body.length = 2) :
    windowsOf 2 f = [window2 f] := by
  unfold windowsOf
  rw [if_neg (by omega), h]
  rw [show (2 - 2 + 1 : Nat) = 1 from rfl]
  rw [show List.range 1 = [0] from rfl]
  have ht : List.take 2 f.body = f.body := List.take_of_length_le (by omega)
  simp [window2, ht]

/-- Claim C5: with three 2-statement functions A, B, C (A first), where
`sim(A,B) >= 0.75`, `sim(B,C) >= 0.75` and `sim(A,C) < 0.75`, the block
detector groups exactly {A's window, B's window} and leaves C's window
ungrouped, for either declaration order of B and C: the grouping is
seed-only and therefore not transitive. -/
theorem c5_seed_only_grouping (fA fB fC : FunctionDef)
    (hA2 : fA.body.length = 2) (hB2 : fB.body.length = 2) (hC2 : fC.body.length = 2)
    (hABn : fA.name ≠ fB.name) (hACn : fA.name ≠ fC.name) (hBCn : fB.name ≠ fC.name)
    (hAB : 3 / 4 ≤ jaccard (blockToks fA.body) (blockToks fB.body))
    (hBC : 3 / 4 ≤ jaccard (blockToks fB.body) (blockToks fC.body))
    (hAC : jaccard (blockToks fA.body) (blockToks fC.body) < 3 / 4) :
    detect_duplicate_blocks [TopLevel.fn fA, TopLevel.fn fB, TopLevel.fn fC] 2 (3 / 4) =
      [[window2 fA, window2 fB]] ∧
    detect_duplicate_blocks [TopLevel.fn fA, TopLevel.fn fC, TopLevel.fn fB] 2 (3 / 4) =
      [[window2 fA, window2 fB]] := by
  have hABne := nonempty_of_jaccard_ge (by norm_num) hAB
  have hBCne := nonempty_of_jaccard_ge (by norm_num) hBC
  constructor
  · have hbm : blocksOfModule 2 [TopLevel.fn fA, TopLevel.fn fB, TopLevel.fn fC] =
        [window2 fA, window2 fB, window2 fC] := by
      simp [blocksOfModule, List.filterMap, windowsOf_len2 hA2, windowsOf_len2 hB2,
        windowsOf_len2 hC2]
    rw [detect_duplicate_blocks, hbm]
    rw [show ([window2 fA, window2 fB, window2 fC]).enum =
        [(0, window2 fA), (1, window2 fB), (2, window2 fC)] from rfl]
    rw [groupLoop_cons_fresh (by simp)]
    rw [scanFrom_cons_hit (by simpa using hABn) (by simp)
      ⟨by simpa using hABne.1, by simpa using hABne.2, by simpa using hAB⟩]
    rw [scanFrom_cons_miss (by simpa using hACn) (by simp)
      (by intro hcon; exact absurd (by simpa using hcon.2.2) (not_le.mpr hAC))]
    rw [scanFrom_nil]
    rw [if_pos (by simp)]
    rw [groupLoop_cons_used (by simp)]
    rw [groupLoop_cons_fresh (by simp)]
    rw [scanFrom_nil]
    rw [if_neg (by simp)]
    rw [groupLoop_nil]
  · have hbm : blocksOfModule 2 [TopLevel.fn fA, TopLevel.fn fC, TopLevel.fn fB] =
        [window2 fA, window2 fC, window2 fB] := by
      simp [blocksOfModule, List.filterMap, windowsOf_len2 hA2, windowsOf_len2 hB2,
        windowsOf_len2 hC2]
    rw [detect_duplicate_blocks, hbm]
    rw [show ([window2 fA, window2 fC, window2 fB]).enum =
        [(0, window2 fA), (1, window2 fC), (2, window2 fB)] from rfl]
    rw [groupLoop_cons_fresh (by simp)]
    rw [scanFrom_cons_miss (by simpa using hACn) (by simp)
      (by intro hcon; exact absurd (by simpa using hcon.2.2) (not_le.mpr hAC))]
    rw [scanFrom_cons_hit (by simpa using hABn) (by simp)
      ⟨by simpa using hABne.1, by simpa using hABne.2, by simpa using hAB⟩]
    rw [scanFrom_nil]
    rw [if_pos (by simp)]
    rw [groupLoop_cons_fresh (by simp)]
    rw [scanFrom_cons_used (by simpa using fun h => hBCn h.symm) (by simp)]
    rw [scanFrom_nil]
    rw [if_neg (by simp)]
    rw [groupLoop_cons_used (by simp)]
    rw [groupLoop_nil]

/-- Witness functions for C5: `fa`, `fb`, `fc` each have a 2-statement
body; their token sets pairwise overlap as 7/9, 7/9 and 6/10. -/
def c5Shared : PyStmt :=
  PyStmt.exprStmt (PyExpr.binop (PyExpr.binop (PyExpr.name "e" Ctx.load) "+"
    (PyExpr.name "f" Ctx.load)) "+" (PyExpr.name "g" Ctx.load))

def c5fA : FunctionDef :=
  { name := "fa"
    args := []
    body := [PyStmt.exprStmt (PyExpr.binop (PyExpr.binop (PyExpr.binop
        (PyExpr.name "a" Ctx.load) "+" (PyExpr.name "b" Ctx.load)) "+"
        (PyExpr.name "c" Ctx.load)) "+" (PyExpr.name "d" Ctx.load)),
      c5Shared]
    decorator_list := [] }

def c5fB : FunctionDef :=
  { name := "fb"
    args := []
    body := [PyStmt.exprStmt (PyExpr.binop (PyExpr.binop (PyExpr.binop
        (PyExpr.name "b" Ctx.load) "+" (PyExpr.name "c" Ctx.load)) "+"
        (PyExpr.name "d" Ctx.load)) "+" (PyExpr.name "x" Ctx.load)),
      c5Shared]
    decorator_list := [] }

def c5fC : FunctionDef :=
  { name := "fc"
    args := []
    body := [PyStmt.exprStmt (PyExpr.binop (PyExpr.binop (PyExpr.binop
        (PyExpr.name "c" Ctx.load) "+" (PyExpr.name "d" Ctx.load)) "+"
        (PyExpr.name "x" Ctx.load)) "+" (PyExpr.name "y" Ctx.load)),
      c5Shared]
    decorator_list := [] }

set_option maxHeartbeats 1000000 in
theorem c5_seed_only_grouping_witness :
    detect_duplicate_blocks [TopLevel.fn c5fA, TopLevel.fn c5fB, TopLevel.fn c5fC] 2
        (3 / 4) = [[window2 c5fA, window2 c5fB]] ∧
    detect_duplicate_blocks [TopLevel.fn c5fA, TopLevel.fn c5fC, TopLevel.fn c5fB] 2
        (3 / 4) = [[window2 c5fA, window2 c5fB]] :=
  c5_seed_only_grouping c5fA c5fB c5fC rfl rfl rfl (by decide) (by decide) (by decide)
    (jaccard_ge_of_cards (i := 7) (u := 9) (by decide) (by decide)
      (ne_empty_of_card_pos (n := 9) (by decide) (by decide)) (by norm_num))
    (jaccard_ge_of_cards (i := 7) (u := 9) (by decide) (by decide)
      (ne_empty_of_card_pos (n := 9) (by decide) (by decide)) (by norm_num))
    (jaccard_lt_of_cards (i := 6) (u := 10) (by decide) (by decide)
      (ne_empty_of_card_pos (n := 10) (by decide) (by decide)) (by norm_num))

/-! ## Rewriter lemmas shared by the rewrite claims. -/

theorem updFirstFn_not_found : ∀ (tree : PyModule) (nm : String)
    (g : FunctionDef → FunctionDef), findFirstFn tree nm = none →
    updFirstFn tree nm g = tree
  | [], _, _, _ => rfl
  | TopLevel.fn f :: rest, nm, g, h => by
      by_cases hf : f.name = nm
      · simp [findFirstFn, hf] at h
      · simp only [findFirstFn, if_neg hf] at h
        simp [updFirstFn, hf, updFirstFn_not_found rest nm g h]
  | TopLevel.stray s :: rest, nm, g, h => by
      simp only [findFirstFn] at h
      simp [updFirstFn, updFirstFn_not_found rest nm g h]

theorem findFirstFn_upd_self : ∀ (tree : PyModule) (nm : String)
    (g : FunctionDef → FunctionDef), (∀ f, (g f).name = f.name) →
    findFirstFn (updFirstFn tree nm g) nm = (findFirstFn tree nm).map g
  | [], _, _, _ => rfl
  | TopLevel.fn f :: rest, nm, g, hg => by
      by_cases hf : f.name = nm
      · simp [updFirstFn, findFirstFn, hf, hg f]
      · simp [updFirstFn, findFirstFn, hf, findFirstFn_upd_self rest nm g hg]
  | TopLevel.stray s :: rest, nm, g, hg => by
      simp [updFirstFn, findFirstFn, findFirstFn_upd_self rest nm g hg]

theorem findFirstFn_append_of_some : ∀ {tree : PyModule} {nm : String}
    {f : FunctionDef} (tl : PyModule), findFirstFn tree nm = some f →
    findFirstFn (tree ++ tl) nm = some f := by
  intro tree
  induction tree with
  | nil => intro nm f tl h; simp [findFirstFn] at h
  | cons node rest ih =>
      intro nm f tl h
      cases node with
      | fn f' =>
          by_cases hf : f'.name = nm
          · simp only [findFirstFn, if_pos hf] at h
            simp [findFirstFn, hf, h]
          · simp only [findFirstFn, if_neg hf] at h
            simp [findFirstFn, hf, ih tl h]
      | stray s =>
          simp only [findFirstFn] at h
          simp [findFirstFn, ih tl h]

theorem analyze_ok {oracle : Oracle} {snippet resp : String}
    (h : oracle snippet = Except.ok resp) :
    analyze_block_functionality oracle snippet = Except.ok
      (if pyIsIdentifier (cleanOracleResponse resp) then cleanOracleResponse resp
       else "common_block") := by
  unfold analyze_block_functionality
  rw [h]
  show (if pyIsIdentifier (cleanOracleResponse resp) = true then
      pure (cleanOracleResponse resp) else pure "common_block" : Except PyErr String) = _
  by_cases hid : pyIsIdentifier (cleanOracleResponse resp)
  · rw [if_pos hid, if_pos hid]; rfl
  · rw [if_neg hid, if_neg hid]; rfl

/-! ## Claim C3: missing referenced names never raise. -/

/-- Claim C3 (amended): when a referenced function name is not among the
tree's top-level declarations, neither rewrite operation raises any
error: `refactor_duplicate_functions` leaves a tree with no mapped
function unchanged (missing duplicates are silently skipped, and a
missing primary is silently referenced by the generated call), and a
duplicate-block occurrence whose owning function is missing is silently
ignored. -/
theorem c3_amended_silent_skip :
    (∀ (tree : PyModule) (duplicate_pairs : List (String × String)),
      (∀ f : FunctionDef, TopLevel.fn f ∈ tree →
        dictGet (dupMapping duplicate_pairs) f.name = none) →
      refactor_duplicate_functions tree duplicate_pairs = tree) ∧
    (∀ (tree : PyModule) (occurrence : Block) (window_size : Nat)
      (helper : String) (argNames : List String),
      findFirstFn tree occurrence.fn = none →
      rewriteOccurrence window_size helper argNames tree occurrence = tree) := by
  constructor
  · intro tree duplicate_pairs h
    unfold refactor_duplicate_functions
    have hcongr : ∀ node ∈ tree,
        (fun node =>
          match node with
          | TopLevel.fn f =>
              match dictGet (dupMapping duplicate_pairs) f.name with
              | some primary =>
                  TopLevel.fn
                    { name := f.name
                      args := f.args
                      body := [PyStmt.ret (Option.some (PyExpr.call
                        (PyExpr.name primary Ctx.load)
                        (f.args.map (fun a => PyExpr.name a Ctx.load))))]
                      decorator_list := f.decorator_list }
              | none => node
          | TopLevel.stray _ => node) node = id node := by
      intro node hn
      cases node with
      | fn f => simp [h f hn]
      | stray s => rfl
    rw [List.map_congr_left hcongr, List.map_id]
  · intro tree occurrence window_size helper argNames h
    exact updFirstFn_not_found tree occurrence.fn _ h

/-- Concrete module for the C3 counterexample and witness. -/
def c3ADef : FunctionDef :=
  { name := "a"
    args := ["x"]
    body := [PyStmt.ret (Option.some (PyExpr.name "x" Ctx.load))]
    decorator_list := [] }

/-- Counterexample for C3 as stated: the pair `("ghost", "a")` references
the primary `ghost`, which is not among the tree's top-level
declarations, yet `refactor_duplicate_functions` raises nothing: it
succeeds and rewrites `a` to call the nonexistent `ghost`. -/
theorem c3_missing_name_no_error :
    findFirstFn [TopLevel.fn c3ADef] "ghost" = none ∧
    refactor_duplicate_functions [TopLevel.fn c3ADef] [("ghost", "a")] =
      [TopLevel.fn
        { name := "a"
          args := ["x"]
          body := [PyStmt.ret (Option.some (PyExpr.call (PyExpr.name "ghost" Ctx.load)
            [PyExpr.name "x" Ctx.load]))]
          decorator_list := [] }] :=
  ⟨rfl, rfl⟩

theorem c3_amended_silent_skip_witness :
    refactor_duplicate_functions [TopLevel.fn c3ADef] [("a", "missing_dup")] =
      [TopLevel.fn c3ADef] :=
  c3_amended_silent_skip.1 [TopLevel.fn c3ADef] [("a", "missing_dup")]
    (fun f hf => by
      have he := List.mem_singleton.mp hf
      injection he with h2
      subst h2
      rfl)

theorem processGroup_eq (oracle : Oracle) (ws : Nat) (st : PyModule × List String)
    (rep : Block) (rest : List Block) (cand : String)
    (hana : analyze_block_functionality oracle rep.code = Except.ok cand) :
    processGroup oracle ws st (rep :: rest) = Except.ok
      ((rep :: rest).foldl
          (rewriteOccurrence ws (freshName cand st.2)
            (pySorted (match findFirstFn st.1 rep.fn with
              | some node => get_free_vars ((node.body.drop rep.start).take ws)
              | none => ∅))) st.1
        ++ [TopLevel.fn
          { name := freshName cand st.2
            args := pySorted (match findFirstFn st.1 rep.fn with
              | some node => get_free_vars ((node.body.drop rep.start).take ws)
              | none => ∅)
            body :=
              (let hb := match findFirstFn st.1 rep.fn with
                | some node => (node.body.drop rep.start).take ws
                | none => []
              match hb.getLast? with
              | some (PyStmt.ret _) => hb
              | _ =>
                  match hb.head? with
                  | some (PyStmt.assign (t0 :: _) _) =>
                      match t0 with
                      | PyExpr.name v _ =>
                          hb ++ [PyStmt.ret (Option.some (PyExpr.name v Ctx.load))]
                      | _ => hb
                  | _ => hb ++ [PyStmt.ret (Option.some (PyExpr.const Const.none))])
            decorator_list := [] }],
        st.2 ++ [freshName cand st.2]) := by
  simp only [processGroup]
  rw [hana]
  rfl

theorem refactor_duplicate_blocks_single (oracle : Oracle) (tree : PyModule)
    (g : List Block) (ws : Nat) (st' : PyModule × List String)
    (hpg : processGroup oracle ws (tree, []) g = Except.ok st') :
    refactor_duplicate_blocks oracle tree [g] ws = Except.ok st'.1 := by
  unfold refactor_duplicate_blocks
  simp [List.foldlM, hpg]

theorem updFirstFn_congr : ∀ (tree : PyModule) (nm : String)
    (g g' : FunctionDef → FunctionDef) (f : FunctionDef),
    findFirstFn tree nm = some f → g f = g' f →
    updFirstFn tree nm g = updFirstFn tree nm g'
  | [], _, _, _, _, h, _ => by simp [findFirstFn] at h
  | TopLevel.fn f' :: rest, nm, g, g', f, h, hgg => by
      by_cases hf : f'.name = nm
      · simp only [findFirstFn, if_pos hf, Option.some.injEq] at h
        subst h
        simp [updFirstFn, hf, hgg]
      · simp only [findFirstFn, if_neg hf] at h
        simp [updFirstFn, hf, updFirstFn_congr rest nm g g' f h hgg]
  | TopLevel.stray s :: rest, nm, g, g', f, h, hgg => by
      simp only [findFirstFn] at h
      simp [updFirstFn, updFirstFn_congr rest nm g g' f h hgg]

/-! ## Claim C10: out-of-range occurrence indices are harmless. -/

/-- Claim C10: for an occurrence whose owning function exists but whose
recorded start index is at or past the end of that function's body, no
error is raised: the out-of-range deletion removes nothing and the bare
helper-call statement is appended at the end of the body (the helper,
built from the empty out-of-range window, takes no arguments and
returns `None`). -/
theorem c10_out_of_range_insert_appends (oracle : Oracle) (tree : PyModule)
    (occurrence : Block) (f : FunctionDef) (resp : String)
    (hfind : findFirstFn tree occurrence.fn = some f)
    (hout : f.body.length ≤ occurrence.start)
    (horacle : oracle occurrence.code = Except.ok resp) :
    ∃ hname t,
      refactor_duplicate_blocks oracle tree [[occurrence]] 2 = Except.ok t ∧
      findFirstFn t occurrence.fn = some
        { f with body := f.body ++
            [PyStmt.exprStmt (PyExpr.call (PyExpr.name hname Ctx.load) [])] } ∧
      t.getLast? = some (TopLevel.fn
        { name := hname
          args := []
          body := [PyStmt.ret (Option.some (PyExpr.const Const.none))]
          decorator_list := [] }) := by
  have hana := analyze_ok horacle
  have hdrop : f.body.drop occurrence.start = [] := List.drop_eq_nil_of_le hout
  have hpg := processGroup_eq oracle 2 (tree, []) occurrence [] _ hana
  rw [hfind] at hpg
  simp only [hdrop, List.take_nil, List.getLast?_nil, List.head?_nil, List.nil_append,
    List.foldl_cons, List.foldl_nil] at hpg
  have hfv : get_free_vars [] = (∅ : Finset String) := rfl
  have hsort : pySorted (∅ : Finset String) = [] := rfl
  rw [hfv, hsort] at hpg
  have hfresh : freshName (if pyIsIdentifier (cleanOracleResponse resp) then
      cleanOracleResponse resp else "common_block") [] =
      (if pyIsIdentifier (cleanOracleResponse resp) then
        cleanOracleResponse resp else "common_block") := by
    simp [freshName]
  rw [hfresh] at hpg
  have hres := refactor_duplicate_blocks_single oracle tree [occurrence] 2 _ hpg
  set hname := (if pyIsIdentifier (cleanOracleResponse resp) then
    cleanOracleResponse resp else "common_block") with hhname
  have hget : f.body.get? occurrence.start = none := List.get?_eq_none.mpr hout
  have hupd : rewriteOccurrence 2 hname [] tree occurrence =
      updFirstFn tree occurrence.fn (fun node =>
        { node with body := node.body ++
            [PyStmt.exprStmt (PyExpr.call (PyExpr.name hname Ctx.load) [])] }) := by
    unfold rewriteOccurrence
    refine updFirstFn_congr tree occurrence.fn _ _ f hfind ?_
    simp only [hget, List.map_nil]
    unfold pyDelSlice pyInsertAt
    rw [List.take_of_length_le hout, List.drop_eq_nil_of_le (by omega), List.append_nil,
      List.take_of_length_le hout, List.drop_eq_nil_of_le hout]
  refine ⟨hname, _, hres, ?_, ?_⟩
  · show findFirstFn (rewriteOccurrence 2 hname [] tree occurrence ++
        [TopLevel.fn ⟨hname, [], [PyStmt.ret (Option.some (PyExpr.const Const.none))], []⟩])
        occurrence.fn = _
    rw [hupd]
    have hfind2 : findFirstFn (updFirstFn tree occurrence.fn (fun node =>
        { node with body := node.body ++
            [PyStmt.exprStmt (PyExpr.call (PyExpr.name hname Ctx.load) [])] }))
        occurrence.fn = some { f with body := f.body ++
          [PyStmt.exprStmt (PyExpr.call (PyExpr.name hname Ctx.load) [])] } := by
      rw [findFirstFn_upd_self tree occurrence.fn (fun node =>
        { node with body := node.body ++
            [PyStmt.exprStmt (PyExpr.call (PyExpr.name hname Ctx.load) [])] })
        (fun f' => rfl), hfind]
      rfl
    exact findFirstFn_append_of_some _ hfind2
  · show (rewriteOccurrence 2 hname [] tree occurrence ++
        [TopLevel.fn ⟨hname, [], [PyStmt.ret (Option.some (PyExpr.const Const.none))], []⟩]).getLast?
        = _
    rw [List.getLast?_concat]

def c10Fn : FunctionDef :=
  { name := "f", args := [], body := [PyStmt.pass], decorator_list := [] }

def c10Occ : Block := { fn := "f", start := 5, code := "pass", toks := ∅ }

def c10Oracle : Oracle := fun _ => Except.ok "make_helper"

theorem c10_out_of_range_insert_appends_witness :
    ∃ hname t,
      refactor_duplicate_blocks c10Oracle [TopLevel.fn c10Fn] [[c10Occ]] 2 =
        Except.ok t ∧
      findFirstFn t c10Occ.fn = some
        { c10Fn with body := c10Fn.body ++
            [PyStmt.exprStmt (PyExpr.call (PyExpr.name hname Ctx.load) [])] } ∧
      t.getLast? = some (TopLevel.fn
        { name := hname
          args := []
          body := [PyStmt.ret (Option.some (PyExpr.const Const.none))]
          decorator_list := [] }) :=
  c10_out_of_range_insert_appends c10Oracle [TopLevel.fn c10Fn] c10Occ c10Fn
    "make_helper" rfl (by decide) rfl

/-! ## Claim C4: shape of the synthesized helper. -/

/-- Claim C4 (amended): the helper's parameters are exactly the
representative block's free variables sorted by name, and its body is
the representative's statements with a synthesized trailing return when
the last statement is not a return, following the code's actual rule:
if the first statement is an assignment whose *first target* is a plain
name, return that name (even for multi-target assignments); if the
block is empty, starts with a non-assignment, or starts with an
assignment with no targets, return `None`; and if the first statement
is an assignment whose first target is not a plain name (e.g. tuple
unpacking), *no* return is appended at all. -/
theorem c4_amended_helper_shape (oracle : Oracle) (tree : PyModule)
    (rep : Block) (rest : List Block) (window_size : Nat) (f : FunctionDef)
    (resp : String)
    (hfind : findFirstFn tree rep.fn = some f)
    (horacle : oracle rep.code = Except.ok resp) :
    ∃ hname t,
      refactor_duplicate_blocks oracle tree [rep :: rest] window_size = Except.ok t ∧
      t.getLast? = some (TopLevel.fn
        { name := hname
          args := pySorted (get_free_vars ((f.body.drop rep.start).take window_size))
          body :=
            (let blk := (f.body.drop rep.start).take window_size
             match blk.getLast? with
             | some (PyStmt.ret _) => blk
             | _ =>
                 match blk.head? with
                 | some (PyStmt.assign (t0 :: _) _) =>
                     match t0 with
                     | PyExpr.name v _ =>
                         blk ++ [PyStmt.ret (Option.some (PyExpr.name v Ctx.load))]
                     | _ => blk
                 | _ => blk ++ [PyStmt.ret (Option.some (PyExpr.const Const.none))])
          decorator_list := [] }) := by
  have hana := analyze_ok horacle
  have hpg := processGroup_eq oracle window_size (tree, []) rep rest _ hana
  rw [hfind] at hpg
  have hres := refactor_duplicate_blocks_single oracle tree (rep :: rest) window_size _ hpg
  refine ⟨freshName (if pyIsIdentifier (cleanOracleResponse resp) then
    cleanOracleResponse resp else "common_block") [], _, hres, ?_⟩
  dsimp only
  rw [List.getLast?_concat]

/-- Counterexample input for C4: the representative block's first
statement is a tuple-unpacking assignment `(a, b) = (1, 2)` and its last
statement is not a return. -/
def c4TupleFn : FunctionDef :=
  { name := "ftup"
    args := []
    body := [PyStmt.assign
        [PyExpr.tuple [PyExpr.name "a" Ctx.store, PyExpr.name "b" Ctx.store] Ctx.store]
        (PyExpr.tuple [PyExpr.const (Const.int 1), PyExpr.const (Const.int 2)] Ctx.load),
      PyStmt.exprStmt (PyExpr.name "a" Ctx.load)]
    decorator_list := [] }

def c4Occ : Block := { fn := "ftup", start := 0, code := "(a, b) = (1, 2)\na", toks := ∅ }

def c4Oracle : Oracle := fun _ => Except.ok "helper_name"

/-- Counterexample for C4 as stated: with a tuple-target first statement
and a non-return last statement, the synthesized helper's body gets *no*
trailing return at all — the claim says a return of an empty/void value
would be synthesized in this case. -/
theorem c4_tuple_target_no_return :
    refactor_duplicate_blocks c4Oracle [TopLevel.fn c4TupleFn] [[c4Occ]] 2 = Except.ok
      [TopLevel.fn
        { name := "ftup"
          args := []
          body := [PyStmt.exprStmt (PyExpr.call (PyExpr.name "helper_name" Ctx.load) [])]
          decorator_list := [] },
       TopLevel.fn
        { name := "helper_name"
          args := []
          body := [PyStmt.assign
              [PyExpr.tuple [PyExpr.name "a" Ctx.store, PyExpr.name "b" Ctx.store] Ctx.store]
              (PyExpr.tuple [PyExpr.const (Const.int 1), PyExpr.const (Const.int 2)] Ctx.load),
            PyStmt.exprStmt (PyExpr.name "a" Ctx.load)]
          decorator_list := [] }] ∧
    ([PyStmt.assign
        [PyExpr.tuple [PyExpr.name "a" Ctx.store, PyExpr.name "b" Ctx.store] Ctx.store]
        (PyExpr.tuple [PyExpr.const (Const.int 1), PyExpr.const (Const.int 2)] Ctx.load),
      PyStmt.exprStmt (PyExpr.name "a" Ctx.load)] : List PyStmt).getLast? =
        some (PyStmt.exprStmt (PyExpr.name "a" Ctx.load)) :=
  ⟨rfl, rfl⟩

/-- Witness input for C4 (amended): the first statement assigns to the
plain name `x`, so the helper returns `x`. -/
def c4WitFn : FunctionDef :=
  { name := "fw"
    args := []
    body := [PyStmt.assign [PyExpr.name "x" Ctx.store]
        (PyExpr.binop (PyExpr.name "a" Ctx.load) "+" (PyExpr.name "b" Ctx.load)),
      PyStmt.exprStmt (PyExpr.name "x" Ctx.load)]
    decorator_list := [] }

def c4WitOcc : Block := { fn := "fw", start := 0, code := "x = a + b\nx", toks := ∅ }

def c4WitOracle : Oracle := fun _ => Except.ok "compute_sum"

theorem c4_amended_helper_shape_witness :
    ∃ hname t,
      refactor_duplicate_blocks c4WitOracle [TopLevel.fn c4WitFn] [[c4WitOcc]] 2 =
        Except.ok t ∧
      t.getLast? = some (TopLevel.fn
        { name := hname
          args := pySorted (get_free_vars ((c4WitFn.body.drop c4WitOcc.start).take 2))
          body :=
            (let blk := (c4WitFn.body.drop c4WitOcc.start).take 2
             match blk.getLast? with
             | some (PyStmt.ret _) => blk
             | _ =>
                 match blk.head? with
                 | some (PyStmt.assign (t0 :: _) _) =>
                     match t0 with
                     | PyExpr.name v _ =>
                         blk ++ [PyStmt.ret (Option.some (PyExpr.name v Ctx.load))]
                     | _ => blk
                 | _ => blk ++ [PyStmt.ret (Option.some (PyExpr.const Const.none))])
          decorator_list := [] }) :=
  c4_amended_helper_shape c4WitOracle [TopLevel.fn c4WitFn] c4WitOcc [] 2 c4WitFn
    "compute_sum" rfl rfl

/-! ## Claim C1: behaviour under oracle failure. -/

def c1Fn : FunctionDef :=
  { name := "f", args := [], body := [PyStmt.pass, PyStmt.pass], decorator_list := [] }

def c1Occ : Block := { fn := "f", start := 0, code := "pass\npass", toks := {"pass"} }

def c1ErrOracle : Oracle := fun _ => Except.error PyErr.oracleErr

/-- Counterexample for C1 as stated: when the oracle call raises, the
exception propagates out of `analyze_block_functionality` uncaught and
`refactor_duplicate_blocks` fails instead of falling back to the
default name. -/
theorem c1_oracle_error_propagates :
    refactor_duplicate_blocks c1ErrOracle [TopLevel.fn c1Fn] [[c1Occ]] 2 =
      Except.error PyErr.oracleErr :=
  rfl

/-- Claim C1 (amended): only an oracle *response* is handled: whenever
the oracle returns (any text at all), the rewrite succeeds for every
list of non-empty groups, and a response that is not a valid identifier
makes the helper fall back to the default name `common_block` (with a
numeric suffix on collision); but an oracle *exception* (timeout,
network error) propagates and the rewrite fails. -/
theorem c1_amended_oracle_fallback :
    (∀ (resp : String → String) (tree : PyModule) (groups : List (List Block))
      (window_size : Nat), (∀ g ∈ groups, g ≠ []) →
      ∃ t, refactor_duplicate_blocks (fun s => Except.ok (resp s)) tree groups
        window_size = Except.ok t) ∧
    (∀ (resp : String) (tree : PyModule) (occ : Block) (rest : List Block)
      (window_size : Nat), pyIsIdentifier (cleanOracleResponse resp) = false →
      ∃ t hf, refactor_duplicate_blocks (fun _ => Except.ok resp) tree [occ :: rest]
          window_size = Except.ok t ∧
        t.getLast? = some (TopLevel.fn hf) ∧ hf.name = "common_block") := by
  constructor
  · intro resp tree groups window_size hne
    have key : ∀ (gs : List (List Block)) (st : PyModule × List String),
        (∀ g ∈ gs, g ≠ []) →
        ∃ st', gs.foldlM (processGroup (fun s => Except.ok (resp s)) window_size) st =
          Except.ok st' := by
      intro gs
      induction gs with
      | nil => intro st _; exact ⟨st, rfl⟩
      | cons g rest ih =>
          intro st h
          rcases g with _ | ⟨rep, grest⟩
          · exact absurd rfl (h [] (by simp))
          · have hana := analyze_ok
              (rfl : (fun s => Except.ok (resp s)) rep.code = Except.ok (resp rep.code))
            have hpg := processGroup_eq (fun s => Except.ok (resp s)) window_size st
              rep grest _ hana
            rcases ih _ (fun g hg => h g (List.mem_cons_of_mem _ hg)) with ⟨st', hst'⟩
            refine ⟨st', ?_⟩
            rw [List.foldlM_cons, hpg]
            exact hst'
    rcases key groups (tree, []) hne with ⟨st', hst'⟩
    refine ⟨st'.1, ?_⟩
    unfold refactor_duplicate_blocks
    rw [hst']
    rfl
  · intro resp tree occ rest window_size hid
    have hana := analyze_ok
      (rfl : (fun _ => Except.ok resp) occ.code = Except.ok resp)
    rw [if_neg (by simp [hid])] at hana
    have hpg := processGroup_eq (fun _ => Except.ok resp) window_size (tree, []) occ
      rest _ hana
    have hres := refactor_duplicate_blocks_single _ tree (occ :: rest) window_size _ hpg
    exact ⟨_, _, hres, by dsimp only; rw [List.getLast?_concat], by simp [freshName]⟩

theorem c1_amended_oracle_fallback_witness :
    pyIsIdentifier (cleanOracleResponse "not an identifier!") = false ∧
    ∃ t hf, refactor_duplicate_blocks (fun _ => Except.ok "not an identifier!")
        [TopLevel.fn c1Fn] [[c1Occ]] 2 = Except.ok t ∧
      t.getLast? = some (TopLevel.fn hf) ∧ hf.name = "common_block" :=
  ⟨by decide, c1_amended_oracle_fallback.2 "not an identifier!" [TopLevel.fn c1Fn]
    c1Occ [] 2 (by decide)⟩
